import Mathlib

/-!
Shallow embedding of the client-log repository (React client log buffering and
synchronization provider) and verification of its specification claims.

The definitions below are translated from the TypeScript sources:
  * `chunkRecords`, `pushToServer`, `log`, `getConfigFromServer` and the
    provider initialization from the current provider implementation
    (src/unnamed/part_002);
  * the data model (`Log`, `Config`, the settings shapes) from
    src/src/lib/models.ts.
TypeScript numeric enums are numbers at runtime, so `LogLevel` values and
`LogType` values are embedded as `Nat` constants.
-/

namespace ClientLog

/-- Log record (models.ts `Log`). `content` and `user` are opaque payloads in
the source (`any`); they are embedded as optional strings since no code path
inspects them. -/
structure Log where
  uuid : String
  trace : String
  level : Nat
  model : Option String
  message : String
  content : Option String
  timestamp : Nat
  user : Option String
deriving DecidableEq

/-- TS enum LogLevel values (numeric at runtime). -/
def LogLevel.NOT_SET : Nat := 0

/-- DEBUG severity. -/
def LogLevel.DEBUG : Nat := 10

/-- INFO severity. -/
def LogLevel.INFO : Nat := 20

/-- WARNING severity. -/
def LogLevel.WARNING : Nat := 30

/-- ERROR severity. -/
def LogLevel.ERROR : Nat := 40

/-- CRITICAL severity. -/
def LogLevel.CRITICAL : Nat := 50

/-- TS enum `LogType { LOG }`: `LogType.LOG` is the number 0 at runtime; the
`log` facade compares its `type` argument against it with `===`, so the
argument is embedded as a plain `Nat`. -/
def LogType.LOG : Nat := 0

/-- Configuration document (models.ts `Config`). -/
structure Config where
  sync : Bool
  timeout : Nat
  logLevel : Nat
  chunkSize : Nat
deriving DecidableEq

/-- Default configuration used by the provider when no `settings.config` is
supplied (part_002, the `useState` initializer). -/
def defaultConfig : Config :=
  { sync := true, timeout := 1000 * 60 * 5, logLevel := LogLevel.INFO,
    chunkSize := 10 }

/-- Settings for log push (models.ts `ClientLogSettings.server.logSync`).
`hasCustomRequest` records whether the optional custom `request` function is
provided; its behaviour is folded into the per-batch transport outcome. -/
structure LogSyncSettings where
  api : Option String
  hasCustomRequest : Bool
deriving DecidableEq

/-- Server settings (models.ts `ClientLogSettings.server`), restricted to the
fields `pushToServer` reads. Headers are carried but only forwarded to the
request; they do not influence control flow. -/
structure ServerSettings where
  baseUrl : Option String
  headers : List (String × String)
  logSync : Option LogSyncSettings
deriving DecidableEq

/-- JS `Array.prototype.splice(start, deleteCount)` on a pure list, for
non-negative arguments: returns the pair (removed elements, remaining array).
JS clamps `start` to the length and `deleteCount` to the available elements;
`List.take`/`List.drop` clamp the same way. -/
def splice (items : List α) (start deleteCount : Nat) : List α × List α :=
  ((items.drop start).take deleteCount,
   items.take start ++ items.drop (start + deleteCount))

/-- Loop body of `chunkRecords` (part_002 lines 12-21):
`for (let i = 0; i < items.length; i += chunkSize) chunks.push(items.splice(i, i + chunkSize))`.
The loop mutates `items` via `splice`, so it is embedded as a recursion on the
remaining array and the counter `i`. `fuel` bounds the iteration count: for
`chunkSize = 0` the source loop never terminates on a non-empty array, and the
model then stops after `fuel` iterations; for `chunkSize ≥ 1` every iteration
removes at least one element, so the initial fuel `items.length + 1` is never
exhausted. -/
def chunkRecordsAux (fuel : Nat) (items : List α) (i chunkSize : Nat) :
    List (List α) :=
  match fuel with
  | 0 => []
  | fuel + 1 =>
    if i < items.length then
      let p := splice items i (i + chunkSize)
      p.1 :: chunkRecordsAux fuel p.2 (i + chunkSize) chunkSize
    else []

/-- `chunkRecords(items, chunkSize)` from part_002 (identical copy in
src/src/lib/db.ts): chunks a list by repeatedly calling
`items.splice(i, i + chunkSize)` while stepping `i` by `chunkSize`. -/
def chunkRecords (items : List α) (chunkSize : Nat) : List (List α) :=
  chunkRecordsAux (items.length + 1) items 0 chunkSize

/-- Target of one per-batch request in `pushToServer`: either the custom
`server.logSync.request` function, or a default `fetch` POST to a URL. -/
inductive ReqTarget
  | custom
  | http (url : String)
deriving DecidableEq

/-- Endpoint resolution inside each per-batch request of `pushToServer`
(part_002 lines 158-180). `server?.logSync?.request` selects the custom
function; otherwise `baseUrl = server?.baseUrl || '/api'` and
`api = server?.logSync.api || '/client-log/logs'`. When `server` is present
but `server.logSync` is absent, the unguarded member access
`server?.logSync.api` raises a TypeError (modelled as `.error ()`), which the
per-batch try/catch then swallows. -/
def resolveRequest (server : Option ServerSettings) : Except Unit ReqTarget :=
  match server with
  | none => Except.ok (ReqTarget.http ("/api" ++ "/client-log/logs"))
  | some s =>
    match s.logSync with
    | some ls =>
      if ls.hasCustomRequest then Except.ok ReqTarget.custom
      else
        Except.ok (ReqTarget.http
          ((s.baseUrl.getD "/api") ++ (ls.api.getD "/client-log/logs")))
    | none => Except.error ()

/-- Settlement of one batch request of `pushToServer`, supplied as an oracle
(the environment decides how the network and IndexedDB behave):
`respOkDelOk` = response ok, `bulkDelete` succeeded; `respOkDelThrew` =
response ok but `bulkDelete` rejected (caught and logged); `respNotOk` =
non-2xx response (delete skipped, nothing logged); `fetchThrew` = the fetch or
custom request rejected (caught and logged). -/
inductive BatchOutcome
  | respOkDelOk
  | respOkDelThrew
  | respNotOk
  | fetchThrew
deriving DecidableEq

/-- One transport call issued by `pushToServer`: the resolved target together
with the batch sent as the request body. -/
structure TransportCall where
  target : ReqTarget
  batch : List Log
deriving DecidableEq

/-- Observable result of one `pushToServer()` invocation. `isInSync` is the
value of the shared flag after the invocation settles; `threw` records whether
the returned promise rejected; `enteredSync` records whether the invocation
passed the guards and set the flag; `calls` are the transport calls issued (in
batch order); `errorLogs` counts `console.error` groups emitted by per-batch
catch blocks; `finalStore` is the content of the `logs` table afterwards. -/
structure PushOutput where
  isInSync : Bool
  threw : Bool
  enteredSync : Bool
  calls : List TransportCall
  errorLogs : Nat
  finalStore : List Log
deriving DecidableEq

/-- Uuids deleted by the run: each batch whose request resolved and whose
response was ok with a successful `bulkDelete` removes exactly the uuids of
its own records (part_002 lines 181-185). -/
def deletedUuids (server : Option ServerSettings)
    (outcome : Nat → BatchOutcome) (chunks : List (List Log)) : List String :=
  (chunks.enum.filterMap fun p =>
    match resolveRequest server with
    | Except.ok _ =>
      if outcome p.1 = BatchOutcome.respOkDelOk then
        some (p.2.map Log.uuid)
      else none
    | Except.error _ => none).flatten

/-- `pushToServer` (part_002 lines 130-199), embedded over its environment:
`flag` is `isInSync.current` at entry, `storeList` is the content of the
`logs` table in timestamp order, `listingOk` tells whether the
`db.logs.orderBy('timestamp').toArray()` await resolves, and `outcome` gives
the settlement of the i-th batch request. The source sets the flag after the
two guards and before the first `await`; if the listing read rejects, the
rejection escapes the async function and the `isInSync.current = false` line
is never reached. Each batch request runs inside its own try/catch, so batch
failures never reject the run. -/
def pushToServer (flag : Bool) (config : Config)
    (server : Option ServerSettings) (storeList : List Log)
    (listingOk : Bool) (outcome : Nat → BatchOutcome) : PushOutput :=
  if flag then
    { isInSync := flag, threw := false, enteredSync := false, calls := [],
      errorLogs := 0, finalStore := storeList }
  else if config.sync = false then
    { isInSync := flag, threw := false, enteredSync := false, calls := [],
      errorLogs := 0, finalStore := storeList }
  else if listingOk = false then
    { isInSync := true, threw := true, enteredSync := true, calls := [],
      errorLogs := 0, finalStore := storeList }
  else
    let chunks :=
      if storeList.length ≠ 0 then chunkRecords storeList config.chunkSize
      else []
    let calls := chunks.enum.filterMap fun p =>
      match resolveRequest server with
      | Except.ok t => some { target := t, batch := p.2 }
      | Except.error _ => none
    let errorLogs := chunks.enum.countP fun p =>
      match resolveRequest server with
      | Except.ok _ =>
        decide (outcome p.1 = BatchOutcome.respOkDelThrew ∨
          outcome p.1 = BatchOutcome.fetchThrew)
      | Except.error _ => true
    let deleted := deletedUuids server outcome chunks
    { isInSync := false, threw := false, enteredSync := true, calls := calls,
      errorLogs := errorLogs,
      finalStore := storeList.filter fun r => decide (r.uuid ∉ deleted) }

/-- Console output emitted by the `log` facade (part_002 lines 268-294),
restricted to the three groups that function can produce. -/
inductive ConsoleEvent
  | warnNotReady
  | groupLogCreated
  | groupErrorRecordCreation
deriving DecidableEq

/-- Observable result of one `log(data, type)` call: the `logs` table content
afterwards, the console events emitted, whether a `db.logs.add` call was
issued, and whether the call rejected towards the caller. -/
structure LogOutput where
  store : List Log
  events : List ConsoleEvent
  wroteIssued : Bool
  threw : Bool
deriving DecidableEq

/-- The `log` facade (part_002 lines 268-294): drop with a warning when the
provider is not ready; otherwise, only for `type === LogType.LOG` and
`data.level >= config.logLevel`, issue `db.logs.add(data)` inside a try/catch
whose catch only logs. `addOk` is the oracle for whether the `add` await
resolves (it rejects on duplicate key or storage failure). Every path returns
normally, so `threw` is `false` by construction of each branch. -/
def log (ready : Bool) (config : Config) (data : Log) (type : Nat)
    (addOk : Bool) (store : List Log) : LogOutput :=
  if ready = false then
    { store := store, events := [ConsoleEvent.warnNotReady],
      wroteIssued := false, threw := false }
  else if type = LogType.LOG then
    if config.logLevel ≤ data.level then
      if addOk then
        { store := store ++ [data], events := [ConsoleEvent.groupLogCreated],
          wroteIssued := true, threw := false }
      else
        { store := store, events := [ConsoleEvent.groupErrorRecordCreation],
          wroteIssued := true, threw := false }
    else
      { store := store, events := [], wroteIssued := false, threw := false }
  else
    { store := store, events := [], wroteIssued := false, threw := false }

/-- Settlement of the remote config fetch inside `getConfigFromServer`:
the response was ok and carried the JSON document `j`, or it was not ok, or
the fetch (or `response.json()`) rejected. -/
inductive FetchOutcome
  | ok (j : Config)
  | notOk
  | threw
deriving DecidableEq

/-- `getConfigFromServer` (part_002 lines 71-124), embedded over its
environment: `enabled` is `settings?.server?.configSync?.enabled`, `parse` is
the optional custom `parseResponse` function, and `fetch` is the settlement of
the request. Returns the config produced (if any) together with the list of
`localStorage.setItem` writes performed. On a successful fetch the parsed
config is written under the key 'client-log-config' and returned; on a non-ok
response or an exception nothing is written and `undefined` is returned. -/
def getConfigFromServer (enabled : Bool) (parse : Option (Config → Config))
    (fetch : FetchOutcome) : Option Config × List (String × Config) :=
  if enabled = false then (none, [])
  else
    match fetch with
    | FetchOutcome.ok j =>
      let config := (parse.getD id) j
      (some config, [("client-log-config", config)])
    | FetchOutcome.notOk => (none, [])
    | FetchOutcome.threw => (none, [])

/-- Initial configuration of the provider (part_002 lines 46-51): the
`useState` initializer is `settings?.config || { ...defaults }`. The second
argument is the snapshot stored in localStorage under 'client-log-config'; the
initializer never reads it, which is exactly what the claim about the
cold-start fallback is checked against. -/
def initConfig (settingsConfig : Option Config)
    (storedSnapshot : Option Config) : Config :=
  match storedSnapshot with
  | _ => settingsConfig.getD defaultConfig

/-- Program counter of one `pushToServer()` invocation, split at its `await`
suspension points (part_002 lines 130-199). `start`: the invocation exists
but its synchronous prefix (both guards, `isInSync.current = true`) has not
run. `noop`: it returned at a guard without entering the sync. `listing`: the
flag is set and the invocation awaits the record listing. `batches`: the
listing settled and the batch transport requests are in flight. `done`: all
requests settled and the flag was cleared. `thrownOut`: the listing await
rejected, the rejection escaped, and the flag was left set. -/
inductive RunPc
  | start
  | noop
  | listing
  | batches
  | done
  | thrownOut
deriving DecidableEq

/-- Shared state of the provider for the single-flight analysis: the mutable
`isInSync` ref and the program counters of all `pushToServer` invocations
triggered so far (by the timer, the liveQuery subscription, or manually). -/
structure SyncState where
  isInSync : Bool
  runs : List RunPc
deriving DecidableEq

/-- A run is active between setting and clearing the flag: it holds the sync
and may issue transport calls (calls are issued only in `batches`). -/
def RunPc.isActive : RunPc → Bool
  | RunPc.start => false
  | RunPc.noop => false
  | RunPc.listing => true
  | RunPc.batches => true
  | RunPc.done => false
  | RunPc.thrownOut => false

/-- Number of active invocations in a list of program counters. -/
def activeCountL (runs : List RunPc) : Nat :=
  runs.countP fun p => p.isActive

/-- Number of simultaneously active `pushToServer` invocations. -/
def activeCount (s : SyncState) : Nat :=
  activeCountL s.runs

/-- Interleaving semantics of overlapping `pushToServer` invocations.
JavaScript runs each segment between two `await`s atomically; the segments of
one invocation, and the transitions between them, are exactly the source's:
`enter` executes the synchronous prefix — guard on the flag, guard on
`config.sync`, then `isInSync.current = true` — as one atomic step, because no
suspension point separates them in the source; `guardBusy`/`guardOff` are the
two early returns; `listingSettles`/`listingThrows` resume after the listing
await; `allSettled` resumes after `Promise.all`, clearing the flag. A step
rewrites one invocation's counter, leaving the others untouched. -/
inductive SyncStep (cfgSync : Bool) : SyncState → SyncState → Prop
  | guardBusy (l r : List RunPc) :
      SyncStep cfgSync ⟨true, l ++ RunPc.start :: r⟩
        ⟨true, l ++ RunPc.noop :: r⟩
  | guardOff (l r : List RunPc) : cfgSync = false →
      SyncStep cfgSync ⟨false, l ++ RunPc.start :: r⟩
        ⟨false, l ++ RunPc.noop :: r⟩
  | enter (l r : List RunPc) : cfgSync = true →
      SyncStep cfgSync ⟨false, l ++ RunPc.start :: r⟩
        ⟨true, l ++ RunPc.listing :: r⟩
  | listingSettles (flag : Bool) (l r : List RunPc) :
      SyncStep cfgSync ⟨flag, l ++ RunPc.listing :: r⟩
        ⟨flag, l ++ RunPc.batches :: r⟩
  | listingThrows (flag : Bool) (l r : List RunPc) :
      SyncStep cfgSync ⟨flag, l ++ RunPc.listing :: r⟩
        ⟨flag, l ++ RunPc.thrownOut :: r⟩
  | allSettled (flag : Bool) (l r : List RunPc) :
      SyncStep cfgSync ⟨flag, l ++ RunPc.batches :: r⟩
        ⟨false, l ++ RunPc.done :: r⟩

/-- Reflexive-transitive closure of `SyncStep`. -/
inductive SyncReaches (cfgSync : Bool) : SyncState → SyncState → Prop
  | refl (s : SyncState) : SyncReaches cfgSync s s
  | step (s t u : SyncState) : SyncReaches cfgSync s t → SyncStep cfgSync t u →
      SyncReaches cfgSync s u

/-- Initial state for `n` overlapping trigger events: the flag is clear and
all `n` invocations are pending. -/
def initSync (n : Nat) : SyncState :=
  { isInSync := false, runs := List.replicate n RunPc.start }

/-- A concrete record used to evaluate the models on concrete inputs. -/
def mkLog (k : Nat) : Log :=
  { uuid := toString k, trace := "t", level := LogLevel.ERROR, model := none,
    message := "m", content := none, timestamp := k, user := none }

/-- C1: the claim states that for every chunk size greater than zero
`chunk(items, size)` covers every input element exactly once in order, with
every group of length at most `size` except possibly the last. The code uses
`items.splice(i, i + chunkSize)` (mutating `splice` where `slice` implements
the documented contract), so on the spec's own scenario input — 25 elements,
size 10 — it returns only two groups, of sizes 10 and 5, and the elements at
positions 11 through 20 (here the value 10 among others) appear in no group
at all. -/
theorem chunkRecords_25_10_drops_elements :
    (chunkRecords (List.range 25) 10).map List.length = [10, 5] ∧
    chunkRecords (List.range 25) 10 =
      [[0, 1, 2, 3, 4, 5, 6, 7, 8, 9], [20, 21, 22, 23, 24]] ∧
    (10 : Nat) ∉ (chunkRecords (List.range 25) 10).flatten := by
  refine ⟨by decide, by decide, by decide⟩

/-- C2: the claim states that 25 submitted records with `chunkSize = 10`,
`sync = true` and a reachable endpoint yield one sync run with exactly 3
batch requests of sizes 10, 10 and 5, after which the store is empty when
every request succeeds. Evaluating `pushToServer` at exactly that input shows
the run issues only 2 requests, of sizes 10 and 5, and even with every
request succeeding the store still holds the 10 records at positions 11–20
(timestamps 10–19) afterwards — a consequence of the `splice` slip in
`chunkRecords`. -/
theorem pushToServer_25_records_two_batches :
    (pushToServer false defaultConfig none ((List.range 25).map mkLog) true
        (fun _ => BatchOutcome.respOkDelOk)).calls.map
        (fun c => c.batch.length) = [10, 5] ∧
    (pushToServer false defaultConfig none ((List.range 25).map mkLog) true
        (fun _ => BatchOutcome.respOkDelOk)).finalStore.map Log.timestamp =
      [10, 11, 12, 13, 14, 15, 16, 17, 18, 19] ∧
    (pushToServer false defaultConfig none ((List.range 25).map mkLog) true
        (fun _ => BatchOutcome.respOkDelOk)).isInSync = false := by
  refine ⟨by decide, by decide, by decide⟩

/-- C4: the claim states that every run entering SYNCING returns to IDLE once
all its batch requests settle, including runs where reading the record
listing fails. In the code the `await db.logs.orderBy('timestamp').toArray()`
call has no try/catch or finally around it: when that read rejects, the
rejection escapes `pushToServer` and the line `isInSync.current = false` is
never executed, so the flag stays set (here evaluated at a one-record store
whose listing read fails) and every later trigger returns at the guard
without ever syncing again. -/
theorem pushToServer_listing_failure_leaves_flag_set :
    (pushToServer false defaultConfig none [mkLog 0] false
        (fun _ => BatchOutcome.respOkDelOk)).enteredSync = true ∧
    (pushToServer false defaultConfig none [mkLog 0] false
        (fun _ => BatchOutcome.respOkDelOk)).threw = true ∧
    (pushToServer false defaultConfig none [mkLog 0] false
        (fun _ => BatchOutcome.respOkDelOk)).isInSync = true ∧
    (pushToServer true defaultConfig none [mkLog 0] true
        (fun _ => BatchOutcome.respOkDelOk)).enteredSync = false ∧
    (pushToServer true defaultConfig none [mkLog 0] true
        (fun _ => BatchOutcome.respOkDelOk)).calls = [] := by
  refine ⟨by decide, by decide, by decide, by decide, by decide⟩

/-- C7 counterexample: the claim states that with no delivery endpoint
configured `runSync()` returns immediately, without entering SYNCING and
without transport calls. Evaluating `pushToServer` with `server = none`, sync
enabled and one stored record shows it enters SYNCING and issues one batch
request to the default endpoint '/api' + '/client-log/logs'. -/
theorem pushToServer_no_endpoint_still_syncs :
    (pushToServer false defaultConfig none [mkLog 0] true
        (fun _ => BatchOutcome.respNotOk)).enteredSync = true ∧
    (pushToServer false defaultConfig none [mkLog 0] true
        (fun _ => BatchOutcome.respNotOk)).calls =
      [{ target := ReqTarget.http "/api/client-log/logs",
         batch := [mkLog 0] }] := by
  refine ⟨by decide, by decide⟩

/-- C8 counterexample: the claim states that at initialization the stored
'client-log-config' snapshot is read and used as the fallback configuration
seed when the remote fetch has not yet completed. The provider's initializer
is `settings?.config || defaults` and never reads localStorage: with no
caller-supplied config and a stored snapshot whose `logLevel` is 40, the
initial configuration is the built-in default (logLevel 20), not the
snapshot. -/
theorem initConfig_ignores_stored_snapshot :
    initConfig none
        (some { sync := true, timeout := 0, logLevel := 40, chunkSize := 3 })
      = defaultConfig ∧
    initConfig none
        (some { sync := true, timeout := 0, logLevel := 40, chunkSize := 3 })
      ≠ { sync := true, timeout := 0, logLevel := 40, chunkSize := 3 } := by
  refine ⟨by decide, by decide⟩

/-- C8 (amended): on every successful remote config fetch the parsed config
is persisted to localStorage under the key 'client-log-config' and returned;
however, the stored snapshot is never read back at initialization — the
initial configuration is `settings.config` or the built-in defaults,
independent of whatever the snapshot holds. -/
theorem config_snapshot_persisted_but_never_read
    (parse : Option (Config → Config)) (j : Config) (sc : Option Config)
    (s1 s2 : Option Config) :
    getConfigFromServer true parse (FetchOutcome.ok j) =
      (some ((parse.getD id) j),
       [("client-log-config", (parse.getD id) j)]) ∧
    initConfig sc s1 = initConfig sc s2 := by
  exact ⟨rfl, rfl⟩

/-- C6: a record is written to the Record Store (a `db.logs.add` is issued)
if and only if the provider is ready, the type is `LogType.LOG` and
`data.level >= config.logLevel` at submission time; in particular a record
below the threshold never causes a store write and leaves the store
unchanged. -/
theorem log_write_iff_level_admits (ready : Bool) (config : Config)
    (data : Log) (type : Nat) (addOk : Bool) (store : List Log) :
    ((log ready config data type addOk store).wroteIssued = true ↔
      (ready = true ∧ type = LogType.LOG ∧ config.logLevel ≤ data.level)) ∧
    (data.level < config.logLevel →
      (log ready config data type addOk store).wroteIssued = false ∧
      (log ready config data type addOk store).store = store) := by
  unfold log
  rcases ready with _ | _ <;> rcases addOk with _ | _ <;>
    split_ifs with h1 h2 <;> simp_all

/-- C9: the `log` facade never rejects towards the caller: when the store is
not ready the call is dropped with only a warning (the store is untouched and
no append is issued), and when the issued append fails the error is caught
and logged while the store content is unchanged. -/
theorem log_never_throws (ready : Bool) (config : Config) (data : Log)
    (type : Nat) (addOk : Bool) (store : List Log) :
    (log ready config data type addOk store).threw = false ∧
    (ready = false →
      (log ready config data type addOk store).store = store ∧
      (log ready config data type addOk store).events =
        [ConsoleEvent.warnNotReady] ∧
      (log ready config data type addOk store).wroteIssued = false) ∧
    (addOk = false → (log ready config data type addOk store).store = store) ∧
    (ready = true → type = LogType.LOG → config.logLevel ≤ data.level →
      addOk = false →
      (log ready config data type addOk store).events =
        [ConsoleEvent.groupErrorRecordCreation]) := by
  unfold log
  rcases ready with _ | _ <;> rcases addOk with _ | _ <;>
    split_ifs with h1 h2 <;> simp_all

/-- C10: for every type value other than `LogType.LOG` the `log` call
completes normally, issues no store write and leaves the store unchanged;
when the provider is ready the call is silently ignored (no console output
at all). -/
theorem log_ignores_other_types (ready : Bool) (config : Config) (data : Log)
    (type : Nat) (addOk : Bool) (store : List Log)
    (h : type ≠ LogType.LOG) :
    (log ready config data type addOk store).threw = false ∧
    (log ready config data type addOk store).wroteIssued = false ∧
    (log ready config data type addOk store).store = store ∧
    (ready = true → (log ready config data type addOk store).events = []) := by
  unfold log
  rcases ready with _ | _ <;> simp_all

/-- Witness for C6 at a concrete input: provider ready, default config, an
ERROR-level record of type LOG, successful append, empty store. -/
theorem log_write_iff_level_admits_witness :
    ((log true defaultConfig (mkLog 0) 0 true []).wroteIssued = true ↔
      (true = true ∧ (0 : Nat) = LogType.LOG ∧
        defaultConfig.logLevel ≤ (mkLog 0).level)) ∧
    ((mkLog 0).level < defaultConfig.logLevel →
      (log true defaultConfig (mkLog 0) 0 true []).wroteIssued = false ∧
      (log true defaultConfig (mkLog 0) 0 true []).store = []) :=
  log_write_iff_level_admits true defaultConfig (mkLog 0) 0 true []

/-- Witness for C9 at a concrete input: provider ready, default config, an
ERROR-level record of type LOG, failing append, empty store. -/
theorem log_never_throws_witness :
    (log true defaultConfig (mkLog 0) 0 false []).threw = false ∧
    (true = false →
      (log true defaultConfig (mkLog 0) 0 false []).store = [] ∧
      (log true defaultConfig (mkLog 0) 0 false []).events =
        [ConsoleEvent.warnNotReady] ∧
      (log true defaultConfig (mkLog 0) 0 false []).wroteIssued = false) ∧
    (false = false → (log true defaultConfig (mkLog 0) 0 false []).store = []) ∧
    (true = true → (0 : Nat) = LogType.LOG →
      defaultConfig.logLevel ≤ (mkLog 0).level → false = false →
      (log true defaultConfig (mkLog 0) 0 false []).events =
        [ConsoleEvent.groupErrorRecordCreation]) :=
  log_never_throws true defaultConfig (mkLog 0) 0 false []

/-- Witness for C10 at a concrete input: type value 1, which differs from
`LogType.LOG` (the number 0). -/
theorem log_ignores_other_types_witness :
    (1 : Nat) ≠ LogType.LOG ∧
    ((log true defaultConfig (mkLog 0) 1 true []).threw = false ∧
      (log true defaultConfig (mkLog 0) 1 true []).wroteIssued = false ∧
      (log true defaultConfig (mkLog 0) 1 true []).store = [] ∧
      (true = true → (log true defaultConfig (mkLog 0) 1 true []).events = [])) :=
  ⟨by decide,
   log_ignores_other_types true defaultConfig (mkLog 0) 1 true [] (by decide)⟩

/-- Single-flight invariant carried through the step relation: at most one
invocation is active, and a clear flag means no invocation is active. -/
def SyncInv (s : SyncState) : Prop :=
  activeCount s ≤ 1 ∧ (s.isInSync = false → activeCount s = 0)

theorem activeCountL_split (l r : List RunPc) (p : RunPc) :
    activeCountL (l ++ p :: r) =
      activeCountL l + (activeCountL r + if p.isActive = true then 1 else 0) := by
  simp [activeCountL, List.countP_append, List.countP_cons]

theorem syncInv_preserved {cfgSync : Bool} {s t : SyncState}
    (h : SyncStep cfgSync s t) (hinv : SyncInv s) : SyncInv t := by
  obtain ⟨h1, h2⟩ := hinv
  cases h with
  | guardBusy l r =>
    have h1' : activeCountL (l ++ RunPc.start :: r) ≤ 1 := h1
    have e1 := activeCountL_split l r RunPc.start
    have e2 := activeCountL_split l r RunPc.noop
    have c1 : (if RunPc.start.isActive = true then 1 else 0) = 0 := rfl
    have c2 : (if RunPc.noop.isActive = true then 1 else 0) = 0 := rfl
    refine ⟨show activeCountL (l ++ RunPc.noop :: r) ≤ 1 by omega, fun hf => ?_⟩
    exact absurd hf (by simp)
  | guardOff l r hc =>
    have h1' : activeCountL (l ++ RunPc.start :: r) ≤ 1 := h1
    have h3 : activeCountL (l ++ RunPc.start :: r) = 0 := h2 rfl
    have e1 := activeCountL_split l r RunPc.start
    have e2 := activeCountL_split l r RunPc.noop
    have c1 : (if RunPc.start.isActive = true then 1 else 0) = 0 := rfl
    have c2 : (if RunPc.noop.isActive = true then 1 else 0) = 0 := rfl
    refine ⟨show activeCountL (l ++ RunPc.noop :: r) ≤ 1 by omega, fun _ => ?_⟩
    show activeCountL (l ++ RunPc.noop :: r) = 0
    omega
  | enter l r hc =>
    have h1' : activeCountL (l ++ RunPc.start :: r) ≤ 1 := h1
    have h3 : activeCountL (l ++ RunPc.start :: r) = 0 := h2 rfl
    have e1 := activeCountL_split l r RunPc.start
    have e2 := activeCountL_split l r RunPc.listing
    have c1 : (if RunPc.start.isActive = true then 1 else 0) = 0 := rfl
    have c2 : (if RunPc.listing.isActive = true then 1 else 0) = 1 := rfl
    refine ⟨show activeCountL (l ++ RunPc.listing :: r) ≤ 1 by omega, fun hf => ?_⟩
    exact absurd hf (by simp)
  | listingSettles flag l r =>
    have h1' : activeCountL (l ++ RunPc.listing :: r) ≤ 1 := h1
    have e1 := activeCountL_split l r RunPc.listing
    have e2 := activeCountL_split l r RunPc.batches
    have c1 : (if RunPc.listing.isActive = true then 1 else 0) = 1 := rfl
    have c2 : (if RunPc.batches.isActive = true then 1 else 0) = 1 := rfl
    refine ⟨show activeCountL (l ++ RunPc.batches :: r) ≤ 1 by omega, fun hf => ?_⟩
    have h3 : activeCountL (l ++ RunPc.listing :: r) = 0 := h2 hf
    show activeCountL (l ++ RunPc.batches :: r) = 0
    omega
  | listingThrows flag l r =>
    have h1' : activeCountL (l ++ RunPc.listing :: r) ≤ 1 := h1
    have e1 := activeCountL_split l r RunPc.listing
    have e2 := activeCountL_split l r RunPc.thrownOut
    have c1 : (if RunPc.listing.isActive = true then 1 else 0) = 1 := rfl
    have c2 : (if RunPc.thrownOut.isActive = true then 1 else 0) = 0 := rfl
    refine ⟨show activeCountL (l ++ RunPc.thrownOut :: r) ≤ 1 by omega, fun hf => ?_⟩
    have h3 : activeCountL (l ++ RunPc.listing :: r) = 0 := h2 hf
    show activeCountL (l ++ RunPc.thrownOut :: r) = 0
    omega
  | allSettled flag l r =>
    have h1' : activeCountL (l ++ RunPc.batches :: r) ≤ 1 := h1
    have e1 := activeCountL_split l r RunPc.batches
    have e2 := activeCountL_split l r RunPc.done
    have c1 : (if RunPc.batches.isActive = true then 1 else 0) = 1 := rfl
    have c2 : (if RunPc.done.isActive = true then 1 else 0) = 0 := rfl
    refine ⟨show activeCountL (l ++ RunPc.done :: r) ≤ 1 by omega, fun _ => ?_⟩
    show activeCountL (l ++ RunPc.done :: r) = 0
    omega

theorem syncInv_init (n : Nat) : SyncInv (initSync n) := by
  have h : activeCount (initSync n) = 0 := by
    induction n with
    | zero => rfl
    | succ n ih =>
      simpa [initSync, activeCount, List.replicate_succ, List.countP_cons,
        RunPc.isActive] using ih
  exact ⟨by omega, fun _ => h⟩

theorem syncInv_reachable {cfgSync : Bool} {n : Nat} {s : SyncState}
    (h : SyncReaches cfgSync (initSync n) s) : SyncInv s := by
  induction h with
  | refl => exact syncInv_init n
  | step _ _ _ hstep ih => exact syncInv_preserved hstep ih

/-- C3: at most one sync run is active at any time. For every number `n` of
overlapping trigger events (timer tick, change notification, manual call) and
every interleaving of the resulting `pushToServer` invocations, every
reachable state has at most one invocation holding the sync (so while one run
is in SYNCING, it is the only active one), at most one invocation with batch
transport requests in flight (so transport calls of two separate invocations
never overlap), and a clear flag implies no active invocation. The guard and
`isInSync.current = true` form one atomic step (`SyncStep.enter`) because the
source executes them with no intervening suspension point, which is exactly
the claim that the flag is set synchronously before the first suspension
point of `runSync()`. -/
theorem at_most_one_sync_active (cfgSync : Bool) (n : Nat) (s : SyncState)
    (h : SyncReaches cfgSync (initSync n) s) :
    activeCount s ≤ 1 ∧
    (s.runs.countP fun p => decide (p = RunPc.batches)) ≤ 1 ∧
    (s.isInSync = false → activeCount s = 0) := by
  obtain ⟨h1, h2⟩ := syncInv_reachable h
  refine ⟨h1, ?_, h2⟩
  calc (s.runs.countP fun p => decide (p = RunPc.batches))
      ≤ s.runs.countP (fun p => p.isActive) := by
        apply List.countP_mono_left
        intro p _ hp
        rcases p <;> simp_all [RunPc.isActive]
    _ ≤ 1 := h1

/-- Witness for C3: from two overlapping triggers, the interleaving where the
first invocation enters the sync and the second then hits the guard reaches
the state with runs `[listing, noop]` and the flag set. -/
theorem at_most_one_sync_active_witness :
    activeCount ⟨true, [RunPc.listing, RunPc.noop]⟩ ≤ 1 ∧
    ((SyncState.mk true [RunPc.listing, RunPc.noop]).runs.countP
      fun p => decide (p = RunPc.batches)) ≤ 1 ∧
    ((SyncState.mk true [RunPc.listing, RunPc.noop]).isInSync = false →
      activeCount ⟨true, [RunPc.listing, RunPc.noop]⟩ = 0) :=
  at_most_one_sync_active true 2 ⟨true, [RunPc.listing, RunPc.noop]⟩
    (SyncReaches.step _ _ _
      (SyncReaches.step _ _ _ (SyncReaches.refl _)
        (SyncStep.enter [] [RunPc.start] rfl))
      (SyncStep.guardBusy [RunPc.listing] []))

/-- One `splice` call partitions the array: removed and remaining elements
together are a permutation of the original array. -/
theorem splice_perm (items : List α) (s d : Nat) :
    List.Perm ((splice items s d).1 ++ (splice items s d).2) items := by
  unfold splice
  refine List.Perm.trans (List.perm_append_comm_assoc _ _ _) ?_
  have h1 : (items.drop s).take d ++ items.drop (s + d) = items.drop s := by
    rw [← List.drop_drop, List.take_append_drop]
  rw [h1, List.take_append_drop]

theorem splice_multiset (items : List α) (s d : Nat) :
    ((splice items s d).1 : Multiset α) + ((splice items s d).2 : Multiset α) =
      (items : Multiset α) := by
  rw [Multiset.coe_add]
  exact Multiset.coe_eq_coe.mpr (splice_perm items s d)

/-- The concatenation of all chunks produced by the `chunkRecords` loop is a
sub-multiset of the input array (the loop only moves elements out, possibly
leaving some behind). -/
theorem chunkRecordsAux_flatten_le (fuel : Nat) (items : List α) (i n : Nat) :
    ((chunkRecordsAux fuel items i n).flatten : Multiset α) ≤
      (items : Multiset α) := by
  induction fuel generalizing items i with
  | zero => simp [chunkRecordsAux]
  | succ fuel ih =>
    unfold chunkRecordsAux
    by_cases h : i < items.length
    · rw [if_pos h]
      rw [List.flatten_cons, ← Multiset.coe_add]
      calc ((splice items i (i + n)).1 : Multiset α) +
            ((chunkRecordsAux fuel (splice items i (i + n)).2
              (i + n) n).flatten : Multiset α)
          ≤ ((splice items i (i + n)).1 : Multiset α) +
            ((splice items i (i + n)).2 : Multiset α) :=
            add_le_add_left (ih _ _) _
        _ = (items : Multiset α) := splice_multiset items i (i + n)
    · rw [if_neg h]
      simp

theorem chunkRecords_flatten_le (items : List α) (n : Nat) :
    ((chunkRecords items n).flatten : Multiset α) ≤ (items : Multiset α) :=
  chunkRecordsAux_flatten_le _ items 0 n

theorem mem_of_mem_chunkRecords {items : List α} {n : Nat} {c : List α}
    {r : α} (hc : c ∈ chunkRecords items n) (hr : r ∈ c) : r ∈ items := by
  have h1 : r ∈ (chunkRecords items n).flatten := List.mem_flatten.mpr ⟨c, hc, hr⟩
  have h2 : r ∈ ((chunkRecords items n).flatten : Multiset α) :=
    Multiset.mem_coe.mpr h1
  exact Multiset.mem_coe.mp
    (Multiset.mem_of_le (chunkRecords_flatten_le items n) h2)

/-- When the store listing has pairwise-distinct uuids (uuid is the Dexie
primary key), the uuids across all chunks are distinct as well. -/
theorem nodup_uuid_flatten_chunks {items : List Log} {n : Nat}
    (h : (items.map Log.uuid).Nodup) :
    (((chunkRecords items n).map (fun c => c.map Log.uuid)).flatten).Nodup := by
  rw [← List.map_flatten]
  have h1 : (((chunkRecords items n).flatten.map Log.uuid) : Multiset String) ≤
      ((items.map Log.uuid) : Multiset String) := by
    have h2 := Multiset.map_le_map (f := Log.uuid) (chunkRecords_flatten_le items n)
    simpa using h2
  have h3 : Multiset.Nodup ((items.map Log.uuid) : Multiset String) :=
    Multiset.coe_nodup.mpr h
  exact Multiset.coe_nodup.mp (Multiset.nodup_of_le h1 h3)

/-- Distinct chunks never share a uuid (given a uuid-nodup store listing). -/
theorem chunk_uuid_disjoint {items : List Log} {n : Nat}
    (h : (items.map Log.uuid).Nodup) {i j : Nat}
    (hi : i < (chunkRecords items n).length)
    (hj : j < (chunkRecords items n).length) (hij : i ≠ j) {u : String}
    (hui : u ∈ ((chunkRecords items n).get ⟨i, hi⟩).map Log.uuid)
    (huj : u ∈ ((chunkRecords items n).get ⟨j, hj⟩).map Log.uuid) : False := by
  have hnd := nodup_uuid_flatten_chunks (n := n) h
  have hpw := (List.nodup_flatten.mp hnd).2
  rw [List.pairwise_iff_get] at hpw
  have hlen : ((chunkRecords items n).map (fun c => c.map Log.uuid)).length =
      (chunkRecords items n).length := List.length_map _ _
  have hgi : ((chunkRecords items n).map (fun c => c.map Log.uuid)).get
      ⟨i, by omega⟩ = ((chunkRecords items n).get ⟨i, hi⟩).map Log.uuid := by
    rw [List.get_map]
  have hgj : ((chunkRecords items n).map (fun c => c.map Log.uuid)).get
      ⟨j, by omega⟩ = ((chunkRecords items n).get ⟨j, hj⟩).map Log.uuid := by
    rw [List.get_map]
  rcases Nat.lt_or_ge i j with hlt | hge
  · have hd := hpw ⟨i, by omega⟩ ⟨j, by omega⟩ hlt
    rw [hgi, hgj] at hd
    exact hd hui huj
  · have hlt2 : j < i := by omega
    have hd := hpw ⟨j, by omega⟩ ⟨i, by omega⟩ hlt2
    rw [hgi, hgj] at hd
    exact hd huj hui

/-- A uuid is deleted by the run only if some batch with a fully successful
settlement contains it. -/
theorem mem_deletedUuids {server : Option ServerSettings}
    {outcome : Nat → BatchOutcome} {chunks : List (List Log)} {u : String}
    (hu : u ∈ deletedUuids server outcome chunks) :
    ∃ j, ∃ hj : j < chunks.length, outcome j = BatchOutcome.respOkDelOk ∧
      u ∈ (chunks.get ⟨j, hj⟩).map Log.uuid := by
  unfold deletedUuids at hu
  rw [List.mem_flatten] at hu
  obtain ⟨ul, hul, humem⟩ := hu
  rw [List.mem_filterMap] at hul
  obtain ⟨p, hp, hmatch⟩ := hul
  cases hres : resolveRequest server with
  | error e =>
    rw [hres] at hmatch
    simp at hmatch
  | ok t =>
    rw [hres] at hmatch
    by_cases ho : outcome p.1 = BatchOutcome.respOkDelOk
    · rw [if_pos ho] at hmatch
      have hul2 : ul = p.2.map Log.uuid := by
        injection hmatch with h2
        exact h2.symm
      rw [List.mem_enum_iff_getElem?] at hp
      have hjlt : p.1 < chunks.length := by
        by_contra hge
        push_neg at hge
        rw [List.getElem?_eq_none hge] at hp
        cases hp
      refine ⟨p.1, hjlt, ho, ?_⟩
      have hget : chunks.get ⟨p.1, hjlt⟩ = p.2 := by
        have h4 := List.getElem?_eq_getElem (l := chunks) (n := p.1) hjlt
        rw [hp] at h4
        injection h4 with h3
        exact h3.symm ▸ rfl
      rw [hget, ← hul2]
      exact humem
    · rw [if_neg ho] at hmatch
      cases hmatch

theorem chunks_if_eq (storeList : List Log) (n : Nat) :
    (if storeList.length ≠ 0 then chunkRecords storeList n else []) =
      chunkRecords storeList n := by
  cases storeList with
  | nil => simp [chunkRecords, chunkRecordsAux]
  | cons a l => simp

/-- Normal form of a `pushToServer` run that passes the guards with a
successful listing read. -/
theorem pushToServer_run_eq (config : Config) (server : Option ServerSettings)
    (storeList : List Log) (outcome : Nat → BatchOutcome)
    (hsync : config.sync = true) :
    pushToServer false config server storeList true outcome =
      { isInSync := false, threw := false, enteredSync := true,
        calls := (chunkRecords storeList config.chunkSize).enum.filterMap
          fun p =>
            match resolveRequest server with
            | Except.ok t => some { target := t, batch := p.2 }
            | Except.error _ => none,
        errorLogs := (chunkRecords storeList config.chunkSize).enum.countP
          fun p =>
            match resolveRequest server with
            | Except.ok _ => decide (outcome p.1 = BatchOutcome.respOkDelThrew ∨
                outcome p.1 = BatchOutcome.fetchThrew)
            | Except.error _ => true,
        finalStore := storeList.filter fun r => decide (r.uuid ∉
          deletedUuids server outcome
            (chunkRecords storeList config.chunkSize)) } := by
  unfold pushToServer
  rw [hsync]
  simp only [chunks_if_eq]
  simp

theorem filterMap_some_eq_map (f : α → β) (L : List α) :
    (L.filterMap fun a => some (f a)) = L.map f := by
  induction L with
  | nil => rfl
  | cons a l ih => simp [List.filterMap_cons, ih]

theorem filterMap_none_eq_nil (L : List α) :
    (L.filterMap fun _ => (none : Option β)) = [] := by
  induction L with
  | nil => rfl
  | cons a l ih => simp [List.filterMap_cons, ih]

theorem enum_filterMap_some (t : ReqTarget) (chunks : List (List Log)) :
    (chunks.enum.filterMap fun p =>
      some ({ target := t, batch := p.2 } : TransportCall)) =
      chunks.map fun b => ({ target := t, batch := b } : TransportCall) := by
  rw [filterMap_some_eq_map]
  rw [show (fun p : Nat × List Log =>
      ({ target := t, batch := p.2 } : TransportCall)) =
      (fun b => ({ target := t, batch := b } : TransportCall)) ∘ Prod.snd
    from rfl]
  rw [← List.map_map, List.enum_map_snd]

/-- A run that passes the guards issues exactly one transport call per chunk
(when the request resolves), or none at all (when endpoint resolution throws
inside every per-batch try). -/
theorem pushToServer_calls_eq (config : Config)
    (server : Option ServerSettings) (storeList : List Log)
    (outcome : Nat → BatchOutcome) (hsync : config.sync = true) :
    (pushToServer false config server storeList true outcome).calls =
      (match resolveRequest server with
       | Except.ok t => (chunkRecords storeList config.chunkSize).map
           (fun b => { target := t, batch := b })
       | Except.error _ => []) := by
  rw [pushToServer_run_eq config server storeList outcome hsync]
  cases hres : resolveRequest server with
  | ok t =>
    show (chunkRecords storeList config.chunkSize).enum.filterMap
        (fun p => some ({ target := t, batch := p.2 } : TransportCall)) = _
    exact enum_filterMap_some t _
  | error e =>
    show (chunkRecords storeList config.chunkSize).enum.filterMap
        (fun _ => (none : Option TransportCall)) = ([] : List TransportCall)
    exact filterMap_none_eq_nil _

theorem chunkRecords_ne_nil {items : List α} (h : items ≠ []) (n : Nat) :
    chunkRecords items n ≠ [] := by
  cases items with
  | nil => exact absurd rfl h
  | cons a l =>
    unfold chunkRecords chunkRecordsAux
    simp

/-- A `pushToServer` invocation returns at the two leading guards — when the
flag is already set or when `config.sync` is false — without entering the
sync and without transport. -/
theorem pushToServer_early (flag : Bool) (config : Config)
    (server : Option ServerSettings) (storeList : List Log) (listingOk : Bool)
    (outcome : Nat → BatchOutcome)
    (h : flag = true ∨ config.sync = false) :
    (pushToServer flag config server storeList listingOk outcome).enteredSync
      = false ∧
    (pushToServer flag config server storeList listingOk outcome).calls = [] :=
  by
  rcases h with h | h
  · subst h
    exact ⟨rfl, rfl⟩
  · cases flag with
    | true => exact ⟨rfl, rfl⟩
    | false =>
      unfold pushToServer
      simp [h]

/-- C5: if the transport call for a batch fails — a non-2xx response or a
rejected fetch — every record of that batch is still in the Record Store
after the run (the next triggered sync lists the store, so the records appear
in its listing), the failure does not abort sibling batches or the run: the
run still issues one request per chunk, completes without rejecting
(`threw = false`) and clears the flag; a rejected fetch is only logged
(`errorLogs` positive), never propagated. The records of the store listing
carry pairwise-distinct uuids, since uuid is the Dexie primary key. -/
theorem failed_batch_records_remain (config : Config)
    (server : Option ServerSettings) (storeList : List Log)
    (outcome : Nat → BatchOutcome) (i : Nat) (r : Log)
    (hnodup : (storeList.map Log.uuid).Nodup)
    (hsync : config.sync = true)
    (hfail : outcome i = BatchOutcome.respNotOk ∨
      outcome i = BatchOutcome.fetchThrew)
    (hr : r ∈ (chunkRecords storeList config.chunkSize).getD i []) :
    r ∈ (pushToServer false config server storeList true outcome).finalStore ∧
    (pushToServer false config server storeList true outcome).threw = false ∧
    (pushToServer false config server storeList true outcome).isInSync
      = false ∧
    (pushToServer false config server storeList true outcome).calls =
      (match resolveRequest server with
       | Except.ok t => (chunkRecords storeList config.chunkSize).map
           (fun b => { target := t, batch := b })
       | Except.error _ => []) ∧
    (outcome i = BatchOutcome.fetchThrew →
      0 < (pushToServer false config server storeList true outcome).errorLogs)
    := by
  have hrun := pushToServer_run_eq config server storeList outcome hsync
  have hi : i < (chunkRecords storeList config.chunkSize).length := by
    by_contra hge
    push_neg at hge
    rw [List.getD_eq_getElem?_getD, List.getElem?_eq_none hge] at hr
    simp at hr
  have hrg : r ∈ (chunkRecords storeList config.chunkSize).get ⟨i, hi⟩ := by
    rw [List.getD_eq_getElem?_getD, List.getElem?_eq_getElem hi] at hr
    simpa [List.get_eq_getElem] using hr
  have hcm : (chunkRecords storeList config.chunkSize).get ⟨i, hi⟩ ∈
      chunkRecords storeList config.chunkSize := List.get_mem _ _ _
  have hmem : r ∈ storeList := mem_of_mem_chunkRecords hcm hrg
  have hdel : r.uuid ∉
      deletedUuids server outcome (chunkRecords storeList config.chunkSize) :=
    by
    intro hin
    obtain ⟨j, hj, hok, huj⟩ := mem_deletedUuids hin
    have hij : i ≠ j := by
      intro he
      rw [← he] at hok
      rcases hfail with h | h <;> rw [h] at hok <;> cases hok
    exact chunk_uuid_disjoint hnodup hi hj hij
      (List.mem_map_of_mem Log.uuid hrg) huj
  refine ⟨?_, ?_, ?_,
    pushToServer_calls_eq config server storeList outcome hsync, ?_⟩
  · rw [hrun]
    show r ∈ storeList.filter fun q => decide (q.uuid ∉
      deletedUuids server outcome (chunkRecords storeList config.chunkSize))
    rw [List.mem_filter]
    exact ⟨hmem, by simpa using hdel⟩
  · rw [hrun]
  · rw [hrun]
  · intro hfetch
    rw [hrun]
    show 0 < (chunkRecords storeList config.chunkSize).enum.countP fun p =>
      match resolveRequest server with
      | Except.ok _ => decide (outcome p.1 = BatchOutcome.respOkDelThrew ∨
          outcome p.1 = BatchOutcome.fetchThrew)
      | Except.error _ => true
    rw [List.countP_pos_iff]
    refine ⟨(i, (chunkRecords storeList config.chunkSize).get ⟨i, hi⟩), ?_, ?_⟩
    · rw [List.mem_enum_iff_getElem?]
      simp [List.getElem?_eq_getElem hi, List.get_eq_getElem]
    · cases hres : resolveRequest server with
      | ok t => simp [hfetch]
      | error e => rfl

/-- Witness for C5 at a concrete input: a one-record store, default config,
no server settings, every request answering with a non-2xx response. -/
theorem failed_batch_records_remain_witness :
    ([mkLog 0].map Log.uuid).Nodup ∧ defaultConfig.sync = true ∧
    ((fun _ : Nat => BatchOutcome.respNotOk) 0 = BatchOutcome.respNotOk ∨
      (fun _ : Nat => BatchOutcome.respNotOk) 0 = BatchOutcome.fetchThrew) ∧
    mkLog 0 ∈ (chunkRecords [mkLog 0] defaultConfig.chunkSize).getD 0 [] ∧
    (mkLog 0 ∈ (pushToServer false defaultConfig none [mkLog 0] true
        (fun _ => BatchOutcome.respNotOk)).finalStore ∧
      (pushToServer false defaultConfig none [mkLog 0] true
        (fun _ => BatchOutcome.respNotOk)).threw = false ∧
      (pushToServer false defaultConfig none [mkLog 0] true
        (fun _ => BatchOutcome.respNotOk)).isInSync = false ∧
      (pushToServer false defaultConfig none [mkLog 0] true
        (fun _ => BatchOutcome.respNotOk)).calls =
        (match resolveRequest none with
         | Except.ok t => (chunkRecords [mkLog 0] defaultConfig.chunkSize).map
             (fun b => { target := t, batch := b })
         | Except.error _ => []) ∧
      ((fun _ : Nat => BatchOutcome.respNotOk) 0 = BatchOutcome.fetchThrew →
        0 < (pushToServer false defaultConfig none [mkLog 0] true
          (fun _ => BatchOutcome.respNotOk)).errorLogs)) :=
  ⟨by decide, rfl, Or.inl rfl, by decide,
   failed_batch_records_remain defaultConfig none [mkLog 0]
     (fun _ => BatchOutcome.respNotOk) 0 (mkLog 0) (by decide) rfl
     (Or.inl rfl) (by decide)⟩

/-- C7 (amended): `pushToServer` has no missing-endpoint guard. With no
server configured (and sync enabled, a reachable store, at least one record)
it still enters SYNCING and issues one batch request per chunk to the
defaulted endpoint '/api' + '/client-log/logs'; it returns immediately —
without entering SYNCING and without any transport call — exactly at the two
guards that do exist: a sync already running, or `Config.sync` false. (The
claimed endpoint guard exists only in the legacy `pushSync` variant in
src/src/lib/db.ts, which returns before setting the flag when its `logUrl`
argument is undefined.) -/
theorem pushToServer_no_endpoint_guard (config config2 : Config)
    (storeList sl : List Log) (outcome oc : Nat → BatchOutcome)
    (flag : Bool) (server2 : Option ServerSettings) (lk : Bool)
    (hsync : config.sync = true) (hne : storeList ≠ [])
    (hearly : flag = true ∨ config2.sync = false) :
    (pushToServer false config none storeList true outcome).enteredSync
      = true ∧
    (pushToServer false config none storeList true outcome).calls =
      (chunkRecords storeList config.chunkSize).map
        (fun b => { target := ReqTarget.http "/api/client-log/logs",
                    batch := b }) ∧
    (pushToServer false config none storeList true outcome).calls ≠ [] ∧
    (pushToServer flag config2 server2 sl lk oc).enteredSync = false ∧
    (pushToServer flag config2 server2 sl lk oc).calls = [] := by
  obtain ⟨he1, he2⟩ := pushToServer_early flag config2 server2 sl lk oc hearly
  have hcalls := pushToServer_calls_eq config none storeList outcome hsync
  refine ⟨?_, hcalls, ?_, he1, he2⟩
  · rw [pushToServer_run_eq config none storeList outcome hsync]
  · rw [hcalls]
    show (chunkRecords storeList config.chunkSize).map
      (fun b => ({ target := ReqTarget.http "/api/client-log/logs",
                   batch := b } : TransportCall)) ≠ []
    intro hnil
    exact chunkRecords_ne_nil hne config.chunkSize (List.map_eq_nil_iff.mp hnil)

/-- Witness for C7 (amended) at a concrete input: one stored record, default
config, no server settings; the early-return part applied to an
already-running sync. -/
theorem pushToServer_no_endpoint_guard_witness :
    defaultConfig.sync = true ∧ ([mkLog 0] : List Log) ≠ [] ∧
    ((true : Bool) = true ∨ defaultConfig.sync = false) ∧
    ((pushToServer false defaultConfig none [mkLog 0] true
        (fun _ => BatchOutcome.respNotOk)).enteredSync = true ∧
      (pushToServer false defaultConfig none [mkLog 0] true
        (fun _ => BatchOutcome.respNotOk)).calls =
        (chunkRecords [mkLog 0] defaultConfig.chunkSize).map
          (fun b => { target := ReqTarget.http "/api/client-log/logs",
                      batch := b }) ∧
      (pushToServer false defaultConfig none [mkLog 0] true
        (fun _ => BatchOutcome.respNotOk)).calls ≠ [] ∧
      (pushToServer true defaultConfig none [] true
        (fun _ => BatchOutcome.respNotOk)).enteredSync = false ∧
      (pushToServer true defaultConfig none [] true
        (fun _ => BatchOutcome.respNotOk)).calls = []) :=
  ⟨rfl, by decide, Or.inl rfl,
   pushToServer_no_endpoint_guard defaultConfig defaultConfig [mkLog 0] []
     (fun _ => BatchOutcome.respNotOk) (fun _ => BatchOutcome.respNotOk)
     true none true rfl (by decide) (Or.inl rfl)⟩

end ClientLog
